import Mathlib

/-!
Verification development for the ZigZag line-extraction and crossover-detection
engine (src/detection/color_detector.py and src/detection/crossover_detector.py).

Modelling conventions:
* Pixel points are pairs of integers (Python ints), exactly as in the source.
* Intersection geometry is carried out over the rationals: the Python source
  computes with machine floats, but every quantity in
  line_segment_intersection is a ratio of integer products, so the rational
  value is the idealised float value.
* Quantities that are genuinely irrational in the source (Euclidean lengths,
  arccos-based angles, confidences blended from them) live in the reals, hence
  several definitions are noncomputable.
* calculate_intersection_angle returns an Option: a zero-length direction
  vector makes numpy emit nan (array division by zero does not raise), and the
  nan outcome is modelled as none.
* A possibly-failing configuration lookup (the config store can hold a
  malformed section, making dict-style access raise inside the try-block) is
  modelled as an Option argument; the except-handlers of the source become the
  none branches.
-/

open Classical

/-- One detected polyline, mirroring the DetectedLine dataclass. -/
structure DetectedLine where
  points : List (ℤ × ℤ)
  color_name : String
  confidence : ℝ
  timestamp : ℝ
  length : ℝ

/-- The per-intersection dictionary built inside find_line_intersections. -/
structure Candidate where
  point : ℤ × ℤ
  angle : ℝ
  confidence : ℝ
  line1_segment : ℕ × (ℤ × ℤ) × (ℤ × ℤ)
  line2_segment : ℕ × (ℤ × ℤ) × (ℤ × ℤ)

/-- The Crossover dataclass of crossover_detector.py. -/
structure Crossover where
  intersection_point : ℤ × ℤ
  line1_name : String
  line2_name : String
  line1_confidence : ℝ
  line2_confidence : ℝ
  timestamp : ℝ
  confidence : ℝ
  angle : ℝ

/-- Combined confidence property of the Crossover dataclass. -/
noncomputable def Crossover.combined_confidence (c : Crossover) : ℝ :=
  (c.line1_confidence + c.line2_confidence + c.confidence) / 3

/-- The two mutable collections owned by CrossoverDetector. -/
structure DetectorState where
  crossover_history : List Crossover
  recent_crossovers : List Crossover

/-- The detection tunables read from the config store.  debounce_seconds is an
Option because the lookup happens inside the try-block of is_new_crossover and
a malformed config store makes it raise; none models that failure. -/
structure DetectionConfig where
  confidence_threshold : ℝ
  intersection_tolerance : ℝ
  debounce_seconds : Option ℝ

/-- Python int() truncation toward zero, applied to a rational. -/
def rat_trunc (q : ℚ) : ℤ :=
  if q < 0 then ⌈q⌉ else ⌊q⌋

/-- denominator = dx1 * dy2 - dy1 * dx2 in line_segment_intersection. -/
def intersection_denominator (p1 p2 p3 p4 : ℤ × ℤ) : ℤ :=
  (p2.1 - p1.1) * (p4.2 - p3.2) - (p2.2 - p1.2) * (p4.1 - p3.1)

/-- t1 = (dx2 * dy3 - dy2 * dx3) / denominator in line_segment_intersection. -/
def intersection_t1 (p1 p2 p3 p4 : ℤ × ℤ) : ℚ :=
  (((p4.1 - p3.1) * (p1.2 - p3.2) - (p4.2 - p3.2) * (p1.1 - p3.1) : ℤ) : ℚ) /
    ((intersection_denominator p1 p2 p3 p4 : ℤ) : ℚ)

/-- t2 = (dx1 * dy3 - dy1 * dx3) / denominator in line_segment_intersection. -/
def intersection_t2 (p1 p2 p3 p4 : ℤ × ℤ) : ℚ :=
  (((p2.1 - p1.1) * (p1.2 - p3.2) - (p2.2 - p1.2) * (p1.1 - p3.1) : ℤ) : ℚ) /
    ((intersection_denominator p1 p2 p3 p4 : ℤ) : ℚ)

/-- CrossoverDetector.line_segment_intersection.  The arithmetic before the
division is integer arithmetic (Python ints never overflow and never raise, so
the try/except around the body is dead); the parallel test compares the
absolute denominator against the literal 1e-10 threshold of the source. -/
def line_segment_intersection (p1 p2 p3 p4 : ℤ × ℤ) : Option (ℚ × ℚ) :=
  let denominator := intersection_denominator p1 p2 p3 p4
  if |(denominator : ℚ)| < 1 / 10000000000 then none
  else
    let t1 := intersection_t1 p1 p2 p3 p4
    let t2 := intersection_t2 p1 p2 p3 p4
    if 0 ≤ t1 ∧ t1 ≤ 1 ∧ 0 ≤ t2 ∧ t2 ≤ 1 then
      some ((p1.1 : ℚ) + t1 * ((p2.1 - p1.1 : ℤ) : ℚ),
            (p1.2 : ℚ) + t1 * ((p2.2 - p1.2 : ℤ) : ℚ))
    else none

/-- CrossoverDetector.calculate_intersection_angle.  When either direction
vector has zero norm, numpy's array division emits a warning and produces nan
(no exception is raised, so the except-handler returning 0.0 is never reached);
the nan outcome is modelled as none.  Otherwise the normalised dot product is
clipped to [-1, 1], arccos is taken, converted to degrees, and the acute form
is returned. -/
noncomputable def calculate_intersection_angle (p1 p2 p3 p4 : ℤ × ℤ) : Option ℝ :=
  let v1 : ℝ × ℝ := (((p2.1 - p1.1 : ℤ) : ℝ), ((p2.2 - p1.2 : ℤ) : ℝ))
  let v2 : ℝ × ℝ := (((p4.1 - p3.1 : ℤ) : ℝ), ((p4.2 - p3.2 : ℤ) : ℝ))
  let n1 := Real.sqrt (v1.1 ^ 2 + v1.2 ^ 2)
  let n2 := Real.sqrt (v2.1 ^ 2 + v2.2 ^ 2)
  if n1 = 0 ∨ n2 = 0 then none
  else
    let dot_product := max (-1 : ℝ) (min ((v1.1 / n1) * (v2.1 / n2) + (v1.2 / n1) * (v2.2 / n2)) 1)
    let angle_deg := Real.arccos dot_product * (180 / Real.pi)
    some (min angle_deg (180 - angle_deg))

/-- Consecutive segments of a polyline (points[i], points[i+1]). -/
def segment_list (pts : List (ℤ × ℤ)) : List ((ℤ × ℤ) × (ℤ × ℤ)) :=
  pts.zip pts.tail

/-- CrossoverDetector.find_line_intersections: every segment of line1 against
every segment of line2, in enumeration order.  The inner none branch for the
angle is unreachable when an intersection exists (proved below): a non-parallel
segment pair has nonzero direction vectors.  In the source a nan angle would
produce a nan-confidence dictionary, which no downstream >= threshold
comparison can accept. -/
noncomputable def find_line_intersections (line1 line2 : DetectedLine) : List Candidate :=
  (segment_list line1.points).enum.flatMap (fun s1 =>
    (segment_list line2.points).enum.flatMap (fun s2 =>
      match line_segment_intersection s1.2.1 s1.2.2 s2.2.1 s2.2.2 with
      | none => []
      | some pt =>
        match calculate_intersection_angle s1.2.1 s1.2.2 s2.2.1 s2.2.2 with
        | none => []
        | some angle =>
          let angle_factor :=
            if angle < 10 then min (angle / 45) 1 * (1 / 2) else min (angle / 45) 1
          [{ point := (rat_trunc pt.1, rat_trunc pt.2),
             angle := angle,
             confidence := (line1.confidence + line2.confidence + angle_factor) / 3,
             line1_segment := (s1.1, s1.2.1, s1.2.2),
             line2_segment := (s2.1, s2.2.1, s2.2.2) }]))

/-- The line-pair enumeration of detect_crossovers: ordered pairs (i, j) with
i < j whose color names differ, in iteration order. -/
def line_pairs : List DetectedLine → List (DetectedLine × DetectedLine)
  | [] => []
  | l :: rest =>
    (rest.filter (fun l2 => decide (l.color_name ≠ l2.color_name))).map (fun l2 => (l, l2)) ++
      line_pairs rest

/-- Euclidean pixel distance used by the duplicate check. -/
noncomputable def pixel_distance (p q : ℤ × ℤ) : ℝ :=
  Real.sqrt (((p.1 - q.1 : ℤ) : ℝ) ^ 2 + ((p.2 - q.2 : ℤ) : ℝ) ^ 2)

/-- Unordered line-pair identity test of is_new_crossover. -/
def same_line_pair (c r : Crossover) : Prop :=
  (c.line1_name = r.line1_name ∧ c.line2_name = r.line2_name) ∨
    (c.line1_name = r.line2_name ∧ c.line2_name = r.line1_name)

/-- CrossoverDetector.is_new_crossover.  Returns the flag together with the
updated recent list: the source loop returns False on the first recent entry
within tolerance, debounce and identity, and otherwise appends the candidate
and returns True.  When the debounce lookup fails (none), the except-handler
returns True without touching the list. -/
noncomputable def is_new_crossover (debounce_seconds : Option ℝ) (tolerance : ℝ)
    (recent : List Crossover) (crossover : Crossover) : Bool × List Crossover :=
  match debounce_seconds with
  | none => (true, recent)
  | some debounce =>
    if ∃ r ∈ recent,
        pixel_distance crossover.intersection_point r.intersection_point < tolerance ∧
        crossover.timestamp - r.timestamp < debounce ∧
        same_line_pair crossover r
    then (false, recent)
    else (true, recent ++ [crossover])

/-- CrossoverDetector.cleanup_old_crossovers: prune recent entries at least one
hour old, and trim the history to its last 1000 entries when it exceeds 1000
(Python list slicing lst[-1000:]). -/
noncomputable def cleanup_old_crossovers (now : ℝ) (st : DetectorState) : DetectorState :=
  { recent_crossovers :=
      st.recent_crossovers.filter (fun c => decide (now - c.timestamp < 3600)),
    crossover_history :=
      if 1000 < st.crossover_history.length then
        st.crossover_history.drop (st.crossover_history.length - 1000)
      else st.crossover_history }

/-- The body of the candidate loop in detect_crossovers, threading
(accepted crossovers, recent list, history). -/
noncomputable def process_candidate (min_confidence tolerance : ℝ) (debounce : Option ℝ)
    (now : ℝ) (acc : List Crossover × List Crossover × List Crossover)
    (x : DetectedLine × DetectedLine × Candidate) :
    List Crossover × List Crossover × List Crossover :=
  if min_confidence ≤ x.2.2.confidence then
    let cross : Crossover :=
      { intersection_point := x.2.2.point,
        line1_name := x.1.color_name,
        line2_name := x.2.1.color_name,
        line1_confidence := x.1.confidence,
        line2_confidence := x.2.1.confidence,
        timestamp := now,
        confidence := x.2.2.confidence,
        angle := x.2.2.angle }
    let res := is_new_crossover debounce tolerance acc.2.1 cross
    if res.1 then (acc.1 ++ [cross], res.2, acc.2.2 ++ [cross])
    else (acc.1, res.2, acc.2.2)
  else acc

/-- CrossoverDetector.detect_crossovers: enumerate differently-coloured line
pairs, collect their segment intersections, filter by the confidence
threshold, dedup via is_new_crossover, and finish with the per-pass
housekeeping. -/
noncomputable def detect_crossovers (cfg : DetectionConfig) (now : ℝ)
    (detected_lines : List DetectedLine) (st : DetectorState) :
    List Crossover × DetectorState :=
  let candidates :=
    (line_pairs detected_lines).flatMap (fun p =>
      (find_line_intersections p.1 p.2).map (fun c => (p.1, p.2, c)))
  let r := candidates.foldl
    (process_candidate cfg.confidence_threshold cfg.intersection_tolerance
      cfg.debounce_seconds now)
    ([], st.recent_crossovers, st.crossover_history)
  (r.1, cleanup_old_crossovers now { crossover_history := r.2.2, recent_crossovers := r.2.1 })

/-- A 3-channel raster image: height, width, and a total pixel function
(reads outside the frame never occur in the modelled code paths). -/
structure Frame where
  h : ℕ
  w : ℕ
  pix : ℤ → ℤ → ℕ × ℕ × ℕ

/-- A single-channel binary mask. -/
structure Mask where
  h : ℕ
  w : ℕ
  pix : ℤ → ℤ → ℕ

/-- cv2.cvtColor(image, COLOR_BGR2HSV) is a pixelwise conversion; the
conversion table itself is opencv internals and enters as a parameter. -/
def hsv_image (toHSV : ℕ × ℕ × ℕ → ℕ × ℕ × ℕ) (img : Frame) : Frame :=
  { h := img.h, w := img.w, pix := fun y x => toHSV (img.pix y x) }

/-- cv2.inRange: a pixel is set (255) iff every channel lies between the lower
and the upper bound inclusive; pixels outside the frame are 0. -/
def inRange (img : Frame) (lo hi : ℤ × ℤ × ℤ) : Mask :=
  { h := img.h, w := img.w,
    pix := fun y x =>
      if 0 ≤ y ∧ y < (img.h : ℤ) ∧ 0 ≤ x ∧ x < (img.w : ℤ) ∧
         lo.1 ≤ ((img.pix y x).1 : ℤ) ∧ ((img.pix y x).1 : ℤ) ≤ hi.1 ∧
         lo.2.1 ≤ ((img.pix y x).2.1 : ℤ) ∧ ((img.pix y x).2.1 : ℤ) ≤ hi.2.1 ∧
         lo.2.2 ≤ ((img.pix y x).2.2 : ℤ) ∧ ((img.pix y x).2.2 : ℤ) ≤ hi.2.2
      then 255 else 0 }

/-- The 3x3 structuring element np.ones((3, 3)). -/
def kernel_offsets : List (ℤ × ℤ) :=
  [(-1, -1), (-1, 0), (-1, 1), (0, -1), (0, 0), (0, 1), (1, -1), (1, 0), (1, 1)]

/-- Mask values under the 3x3 window clipped to the frame (opencv's default
morphology border value makes out-of-frame neighbours neutral). -/
def neighbor_values (m : Mask) (y x : ℤ) : List ℕ :=
  kernel_offsets.filterMap (fun o =>
    if 0 ≤ y + o.1 ∧ y + o.1 < (m.h : ℤ) ∧ 0 ≤ x + o.2 ∧ x + o.2 < (m.w : ℤ) then
      some (m.pix (y + o.1) (x + o.2))
    else none)

/-- 3x3 erosion: minimum over the window. -/
def erode3 (m : Mask) : Mask :=
  { h := m.h, w := m.w, pix := fun y x => (neighbor_values m y x).foldl min 255 }

/-- 3x3 dilation: maximum over the window. -/
def dilate3 (m : Mask) : Mask :=
  { h := m.h, w := m.w, pix := fun y x => (neighbor_values m y x).foldl max 0 }

/-- cv2.morphologyEx MORPH_OPEN: erosion followed by dilation. -/
def morph_open (m : Mask) : Mask := dilate3 (erode3 m)

/-- cv2.morphologyEx MORPH_CLOSE: dilation followed by erosion. -/
def morph_close (m : Mask) : Mask := erode3 (dilate3 m)

/-- The six dict accesses color_config[...] in create_color_mask; a missing key
raises KeyError, modelled as none. -/
def get_hsv_bounds (cfg : String → Option ℤ) : Option ((ℤ × ℤ × ℤ) × (ℤ × ℤ × ℤ)) :=
  match cfg "hue_min", cfg "sat_min", cfg "val_min",
        cfg "hue_max", cfg "sat_max", cfg "val_max" with
  | some hmin, some smin, some vmin, some hmax, some smax, some vmax =>
    some ((hmin, smin, vmin), (hmax, smax, vmax))
  | _, _, _, _, _, _ => none

/-- np.zeros(image.shape[:2]). -/
def zeros_mask (h w : ℕ) : Mask := { h := h, w := w, pix := fun _ _ => 0 }

/-- ColorDetector.create_color_mask: HSV conversion, inRange threshold, then
morphological open and close; any processing failure (modelled: a missing
config key) is caught and yields an all-zero mask of the image's height and
width. -/
def create_color_mask (toHSV : ℕ × ℕ × ℕ → ℕ × ℕ × ℕ) (image : Frame)
    (color_config : String → Option ℤ) : Mask :=
  match get_hsv_bounds color_config with
  | none => zeros_mask image.h image.w
  | some (lo, hi) => morph_close (morph_open (inRange (hsv_image toHSV image) lo hi))

/-- Python int() truncation toward zero, applied to a real. -/
noncomputable def real_trunc (r : ℝ) : ℤ :=
  if r < 0 then ⌈r⌉ else ⌊r⌋

/-- Total polyline length: sum of Euclidean distances between consecutive
points (the loops of DetectedLine post-init and calculate_line_confidence). -/
noncomputable def polyline_length (pts : List (ℤ × ℤ)) : ℝ :=
  (segment_list pts).foldl
    (fun acc s =>
      acc + Real.sqrt (((s.2.1 - s.1.1 : ℤ) : ℝ) ^ 2 + ((s.2.2 - s.1.2 : ℤ) : ℝ) ^ 2))
    0

/-- steps = max(int(np.sqrt(dx^2 + dy^2) / 5), 1): for a nonnegative integer
radicand, int(sqrt(n) / 5) equals Nat.sqrt n / 5 (lemma seg_steps_eq_floor
below certifies the translation). -/
def seg_steps (p q : ℤ × ℤ) : ℕ :=
  max (Nat.sqrt ((q.1 - p.1) ^ 2 + (q.2 - p.2) ^ 2).toNat / 5) 1

/-- The j-th sample on the segment p-q: t = j / steps (Python float division),
coordinates truncated to ints. -/
noncomputable def sample_point (p q : ℤ × ℤ) (steps : ℕ) (j : ℕ) : ℤ × ℤ :=
  ((real_trunc ((p.1 : ℝ) + ((j : ℝ) / (steps : ℝ)) * ((q.1 - p.1 : ℤ) : ℝ))),
   (real_trunc ((p.2 : ℝ) + ((j : ℝ) / (steps : ℝ)) * ((q.2 - p.2 : ℤ) : ℝ))))

/-- The bounds check 0 <= y < mask.shape[0] and 0 <= x < mask.shape[1] for a
sample (x, y). -/
def sample_in_frame (mask : Mask) (pt : ℤ × ℤ) : Prop :=
  0 ≤ pt.2 ∧ pt.2 < (mask.h : ℤ) ∧ 0 ≤ pt.1 ∧ pt.1 < (mask.w : ℤ)

/-- The (mask_hits, total_checks) accumulation of calculate_line_confidence:
per segment, per j in range(steps), count in-frame samples and in-frame
samples on a nonzero mask pixel. -/
noncomputable def mask_sample_counts (mask : Mask) (pts : List (ℤ × ℤ)) : ℕ × ℕ :=
  (segment_list pts).foldl
    (fun acc s =>
      (List.range (seg_steps s.1 s.2)).foldl
        (fun acc2 j =>
          let pt := sample_point s.1 s.2 (seg_steps s.1 s.2) j
          if sample_in_frame mask pt then
            if 0 < mask.pix pt.2 pt.1 then (acc2.1 + 1, acc2.2 + 1)
            else (acc2.1, acc2.2 + 1)
          else acc2)
        acc)
    (0, 0)

/-- ColorDetector.calculate_line_confidence. -/
noncomputable def calculate_line_confidence (pts : List (ℤ × ℤ)) (mask : Mask) : ℝ :=
  if pts.length < 2 then 0
  else
    let length_factor := min (polyline_length pts / 200) 1
    let points_factor := min ((pts.length : ℝ) / 20) 1
    let counts := mask_sample_counts mask pts
    let mask_factor := (counts.1 : ℝ) / ((max counts.2 1 : ℕ) : ℝ)
    min (max ((length_factor + points_factor + mask_factor) / 3) 0) 1

/-- The flat list of all samples taken by the mask-density loop, in order;
used to state the spec's description of mask_factor as a fraction. -/
noncomputable def sample_points_spec (pts : List (ℤ × ℤ)) : List (ℤ × ℤ) :=
  (segment_list pts).flatMap (fun s =>
    (List.range (seg_steps s.1 s.2)).map (sample_point s.1 s.2 (seg_steps s.1 s.2)))

/-- Modelled from the spec wording for 4.2: the fraction of samples landing on
a nonzero mask pixel, with out-of-frame samples excluded from both numerator
and denominator (the reference guards an empty denominator with max 1). -/
noncomputable def mask_factor_spec (mask : Mask) (pts : List (ℤ × ℤ)) : ℝ :=
  let checked := (sample_points_spec pts).filter (fun pt => decide (sample_in_frame mask pt))
  let hits := checked.filter (fun pt => decide (0 < mask.pix pt.2 pt.1))
  (hits.length : ℝ) / ((max checked.length 1 : ℕ) : ℝ)

/-- One configured color band: colors dict entry name, enabled flag, and the
HSV-bound entries of the per-band dict. -/
structure ColorBand where
  name : String
  enabled : Bool
  cfg : String → Option ℤ

/-- The band loop of ColorDetector.detect_lines.  A band with nonempty
extracted points reaches the DetectedLine(...) construction, which omits the
required dataclass field length; the TypeError is caught by the method's
blanket except-handler, which returns the lines accumulated so far. -/
def detect_lines_go (toHSV : ℕ × ℕ × ℕ → ℕ × ℕ × ℕ)
    (extract : Mask → ℕ → List (ℤ × ℤ)) (image : Frame) (min_length : ℕ) :
    List ColorBand → List DetectedLine → List DetectedLine
  | [], acc => acc
  | band :: rest, acc =>
    if band.enabled then
      let mask := create_color_mask toHSV image band.cfg
      let points := extract mask min_length
      if points.isEmpty then detect_lines_go toHSV extract image min_length rest acc
      else acc
    else detect_lines_go toHSV extract image min_length rest acc

/-- ColorDetector.detect_lines.  The mask construction is 4.1
(create_color_mask); contour-based point extraction (extract_line_points) is
pure opencv and enters as the parameter extract. -/
def detect_lines (toHSV : ℕ × ℕ × ℕ → ℕ × ℕ × ℕ)
    (extract : Mask → ℕ → List (ℤ × ℤ)) (bands : List ColorBand)
    (min_length : ℕ) (image : Frame) : List DetectedLine :=
  detect_lines_go toHSV extract image min_length bands []

/-- Modelled from the spec (4.5/3): the intended per-band DetectedLine
construction, with length derived from the points as the dataclass post-init
computes it; the shipped code never reaches a successful construction because
the call omits the required length argument. -/
noncomputable def mkDetectedLine (points : List (ℤ × ℤ)) (color_name : String)
    (confidence : ℝ) (timestamp : ℝ) : DetectedLine :=
  { points := points, color_name := color_name, confidence := confidence,
    timestamp := timestamp, length := polyline_length points }

/-! ### Helper lemmas and concrete values -/

/-- A concrete crossover used by several witnesses. -/
noncomputable def cross_w : Crossover :=
  { intersection_point := (3, 4), line1_name := "a", line2_name := "b",
    line1_confidence := 1, line2_confidence := 1, timestamp := 0,
    confidence := 1, angle := 90 }

/-- A second concrete crossover, 30 seconds later at the same point. -/
noncomputable def cross_w2 : Crossover :=
  { intersection_point := (3, 4), line1_name := "b", line2_name := "a",
    line1_confidence := 1, line2_confidence := 1, timestamp := 30,
    confidence := 1, angle := 90 }

lemma pixel_distance_symm (p q : ℤ × ℤ) : pixel_distance p q = pixel_distance q p := by
  unfold pixel_distance
  congr 1
  push_cast
  ring

lemma same_line_pair_symm {c r : Crossover} (h : same_line_pair c r) : same_line_pair r c := by
  unfold same_line_pair at h ⊢
  tauto

/-- Evaluation of is_new_crossover when the debounce lookup succeeds. -/
lemma is_new_some_eq (d tolerance : ℝ) (recent : List Crossover) (c : Crossover) :
    is_new_crossover (some d) tolerance recent c =
      if ∃ r ∈ recent,
          pixel_distance c.intersection_point r.intersection_point < tolerance ∧
          c.timestamp - r.timestamp < d ∧ same_line_pair c r
      then (false, recent) else (true, recent ++ [c]) := rfl

lemma detect_lines_go_eq (toHSV : ℕ × ℕ × ℕ → ℕ × ℕ × ℕ)
    (extract : Mask → ℕ → List (ℤ × ℤ)) (image : Frame) (min_length : ℕ) :
    ∀ (bands : List ColorBand) (acc : List DetectedLine),
      detect_lines_go toHSV extract image min_length bands acc = acc := by
  intro bands
  induction bands with
  | nil => intro acc; rfl
  | cons b rest ih =>
    intro acc
    by_cases hb : b.enabled
    · by_cases hp : (extract (create_color_mask toHSV image b.cfg) min_length).isEmpty
      · simp only [detect_lines_go, hb, if_true, hp]
        exact ih acc
      · simp only [detect_lines_go, hb, if_true, hp]
        simp
    · simp only [detect_lines_go, hb]
      simp only [if_false, Bool.false_eq_true]
      exact ih acc

lemma cleanup_history_eq (now : ℝ) (st : DetectorState) :
    (cleanup_old_crossovers now st).crossover_history =
      st.crossover_history.drop (st.crossover_history.length - 1000) := by
  by_cases h : 1000 < st.crossover_history.length
  · simp [cleanup_old_crossovers, h]
  · have h0 : st.crossover_history.length - 1000 = 0 := by omega
    simp [cleanup_old_crossovers, h, h0]

lemma cleanup_history_le (now : ℝ) (st : DetectorState) :
    (cleanup_old_crossovers now st).crossover_history.length ≤ 1000 := by
  rw [cleanup_history_eq]
  rw [List.length_drop]
  omega

lemma cleanup_recent_mem (now : ℝ) (st : DetectorState) :
    ∀ c ∈ (cleanup_old_crossovers now st).recent_crossovers, now - c.timestamp < 3600 := by
  intro c hc
  simp only [cleanup_old_crossovers, List.mem_filter, decide_eq_true_eq] at hc
  exact hc.2

/-- C9: when the uniqueness evaluation inside is_new_crossover fails
internally (the debounce lookup raising, modelled by the none argument), the
except-handler allows the candidate: the function returns True rather than
rejecting the crossover or propagating the exception. -/
theorem C9_fail_open (tolerance : ℝ) (recent : List Crossover) (c : Crossover) :
    (is_new_crossover none tolerance recent c).1 = true := rfl

/-- C10 counterexample: on the internal-failure path, is_new_crossover returns
True yet leaves the recent list unchanged, so appending is not exactly
equivalent to returning True. -/
theorem C10_counterexample :
    (is_new_crossover none 8 [] cross_w).1 = true ∧
      (is_new_crossover none 8 [] cross_w).2 = [] :=
  ⟨rfl, rfl⟩

/-- C10 (amended): when the uniqueness evaluation succeeds, is_new_crossover
appends the candidate to the recent list exactly when it returns True, and a
candidate rejected as a duplicate leaves the list unchanged; moreover a
candidate pass of detect_crossovers that emits no crossover leaves the whole
(crossovers, recent, history) state unchanged, so the debounce window is
measured from the first accepted crossover and never refreshed by rejected
duplicates. -/
theorem C10_append_iff_accepted :
    (∀ (d tolerance : ℝ) (recent : List Crossover) (c : Crossover),
      ((is_new_crossover (some d) tolerance recent c).1 = true ↔
        (is_new_crossover (some d) tolerance recent c).2 = recent ++ [c]) ∧
      ((is_new_crossover (some d) tolerance recent c).1 = false ↔
        (is_new_crossover (some d) tolerance recent c).2 = recent)) ∧
    (∀ (min_confidence tolerance : ℝ) (debounce : Option ℝ) (now : ℝ)
      (acc : List Crossover × List Crossover × List Crossover)
      (x : DetectedLine × DetectedLine × Candidate),
      (process_candidate min_confidence tolerance debounce now acc x).1 = acc.1 →
      process_candidate min_confidence tolerance debounce now acc x = acc) := by
  have key : ∀ (d tolerance : ℝ) (recent : List Crossover) (c : Crossover),
      ((is_new_crossover (some d) tolerance recent c).1 = true ↔
        (is_new_crossover (some d) tolerance recent c).2 = recent ++ [c]) ∧
      ((is_new_crossover (some d) tolerance recent c).1 = false ↔
        (is_new_crossover (some d) tolerance recent c).2 = recent) := by
    intro d tolerance recent c
    rw [is_new_some_eq]
    by_cases h : ∃ r ∈ recent,
        pixel_distance c.intersection_point r.intersection_point < tolerance ∧
        c.timestamp - r.timestamp < d ∧ same_line_pair c r
    · rw [if_pos h]
      constructor
      · constructor
        · intro hf; simp at hf
        · intro hl
          have : (recent ++ [c]).length = recent.length := by rw [← hl]
          simp at this
      · simp
    · rw [if_neg h]
      constructor
      · simp
      · constructor
        · intro hf; simp at hf
        · intro hl
          have : (recent ++ [c]).length = recent.length := by
            simpa using congrArg List.length hl
          simp at this
  refine ⟨key, ?_⟩
  intro min_confidence tolerance debounce now acc x hacc
  by_cases hconf : min_confidence ≤ x.2.2.confidence
  · revert hacc
    simp only [process_candidate, hconf, if_true]
    set cross : Crossover :=
      { intersection_point := x.2.2.point,
        line1_name := x.1.color_name,
        line2_name := x.2.1.color_name,
        line1_confidence := x.1.confidence,
        line2_confidence := x.2.1.confidence,
        timestamp := now,
        confidence := x.2.2.confidence,
        angle := x.2.2.angle } with hcross
    by_cases hnew : (is_new_crossover debounce tolerance acc.2.1 cross).1 = true
    · simp only [hnew, if_true]
      intro hbad
      exfalso
      have : (acc.1 ++ [cross]).length = acc.1.length := by rw [hbad]
      simp at this
    · simp only [hnew, if_false, Bool.false_eq_true]
      intro _
      match debounce with
      | none => exact absurd (C9_fail_open tolerance acc.2.1 cross) hnew
      | some d =>
        have hfalse : (is_new_crossover (some d) tolerance acc.2.1 cross).1 = false := by
          revert hnew
          cases (is_new_crossover (some d) tolerance acc.2.1 cross).1 <;> simp
        have hrec : (is_new_crossover (some d) tolerance acc.2.1 cross).2 = acc.2.1 :=
          ((key d tolerance acc.2.1 cross).2).mp hfalse
        rw [hrec]
  · simp [process_candidate, hconf]

/-- C10 witness: a fresh candidate against an empty recent list is accepted
and appended. -/
theorem C10_witness :
    (is_new_crossover (some 60) 8 [] cross_w).2 = [] ++ [cross_w] :=
  ((C10_append_iff_accepted.1 60 8 [] cross_w).1).mp (by rw [is_new_some_eq]; simp)

/-- C2: as shipped, detect_lines returns the empty list for every frame and
every band configuration: the DetectedLine construction omits the required
dataclass field length, so the first band with a non-empty extracted point
list raises TypeError, the blanket handler returns the (still empty)
accumulated list, and bands with empty points are dropped before that.  The
claimed per-band behaviour is therefore never realised. -/
theorem C2_detect_lines_always_empty (toHSV : ℕ × ℕ × ℕ → ℕ × ℕ × ℕ)
    (extract : Mask → ℕ → List (ℤ × ℤ)) (bands : List ColorBand)
    (min_length : ℕ) (image : Frame) :
    detect_lines toHSV extract bands min_length image = [] :=
  detect_lines_go_eq toHSV extract image min_length bands []

/-- C6: after the per-pass housekeeping the history is the most recent 1000
entries (oldest dropped first, FIFO), hence holds at most 1000 entries; the
recent list keeps no entry one hour old or older; a history of 1001 entries is
trimmed to exactly 1000 by dropping the single oldest; and the state returned
by detect_crossovers obeys the history bound. -/
theorem C6_history_bound_and_retention :
    (∀ (now : ℝ) (st : DetectorState),
      (cleanup_old_crossovers now st).crossover_history =
        st.crossover_history.drop (st.crossover_history.length - 1000) ∧
      (cleanup_old_crossovers now st).crossover_history.length ≤ 1000 ∧
      ∀ c ∈ (cleanup_old_crossovers now st).recent_crossovers, now - c.timestamp < 3600) ∧
    (∀ (now : ℝ) (st : DetectorState),
      st.crossover_history.length = 1001 →
      (cleanup_old_crossovers now st).crossover_history.length = 1000 ∧
      (cleanup_old_crossovers now st).crossover_history = st.crossover_history.drop 1) ∧
    (∀ (cfg : DetectionConfig) (now : ℝ) (lines : List DetectedLine) (st : DetectorState),
      (detect_crossovers cfg now lines st).2.crossover_history.length ≤ 1000) := by
  refine ⟨fun now st => ⟨cleanup_history_eq now st, cleanup_history_le now st,
    cleanup_recent_mem now st⟩, ?_, ?_⟩
  · intro now st h
    constructor
    · rw [cleanup_history_eq, List.length_drop, h]
    · rw [cleanup_history_eq, h]
  · intro cfg now lines st
    exact cleanup_history_le now _

/-- C6 witness: 1001 history entries are trimmed to exactly 1000. -/
theorem C6_witness :
    (cleanup_old_crossovers 0
      ⟨List.replicate 1001 cross_w, []⟩).crossover_history.length = 1000 :=
  (C6_history_bound_and_retention.2.1 0 ⟨List.replicate 1001 cross_w, []⟩
    (by exact List.length_replicate 1001 cross_w)).1

/-- Submitting two candidates in order against an empty deduplicator: how many
of the two is_new_crossover calls accept. -/
noncomputable def accepted_count (d tolerance : ℝ) (c1 c2 : Crossover) : ℕ :=
  (if (is_new_crossover (some d) tolerance [] c1).1 = true then 1 else 0) +
    (if (is_new_crossover (some d) tolerance
          (is_new_crossover (some d) tolerance [] c1).2 c2).1 = true then 1 else 0)

lemma is_new_first (d tolerance : ℝ) (c : Crossover) :
    is_new_crossover (some d) tolerance [] c = (true, [c]) := by
  rw [is_new_some_eq]
  simp

/-- C3: two candidates with the same unordered line pair, intersection points
within tolerance of each other and timestamps less than debounce apart yield
exactly one accepted crossover, in either submission order; if their
timestamps are at least debounce apart (submitted in timestamp order) or their
distance is at least the tolerance, both are accepted. -/
theorem C3_dedup_property (d tolerance : ℝ) (c1 c2 : Crossover)
    (hpair : same_line_pair c1 c2) :
    ((pixel_distance c1.intersection_point c2.intersection_point < tolerance ∧
      |c1.timestamp - c2.timestamp| < d) →
      accepted_count d tolerance c1 c2 = 1 ∧ accepted_count d tolerance c2 c1 = 1) ∧
    ((d ≤ |c1.timestamp - c2.timestamp| ∧ c1.timestamp ≤ c2.timestamp) →
      accepted_count d tolerance c1 c2 = 2) ∧
    (tolerance ≤ pixel_distance c1.intersection_point c2.intersection_point →
      accepted_count d tolerance c1 c2 = 2 ∧ accepted_count d tolerance c2 c1 = 2) := by
  have hsymmd : pixel_distance c2.intersection_point c1.intersection_point =
      pixel_distance c1.intersection_point c2.intersection_point :=
    pixel_distance_symm _ _
  refine ⟨?_, ?_, ?_⟩
  · rintro ⟨hd, ht⟩
    constructor
    · have hdup : ∃ r ∈ [c1],
          pixel_distance c2.intersection_point r.intersection_point < tolerance ∧
          c2.timestamp - r.timestamp < d ∧ same_line_pair c2 r := by
        refine ⟨c1, List.mem_singleton_self c1, ?_, ?_, same_line_pair_symm hpair⟩
        · rw [hsymmd]; exact hd
        · calc c2.timestamp - c1.timestamp
              ≤ |c2.timestamp - c1.timestamp| := le_abs_self _
            _ = |c1.timestamp - c2.timestamp| := abs_sub_comm _ _
            _ < d := ht
      simp only [accepted_count, is_new_first]
      rw [is_new_some_eq, if_pos hdup]
      simp
    · have hdup : ∃ r ∈ [c2],
          pixel_distance c1.intersection_point r.intersection_point < tolerance ∧
          c1.timestamp - r.timestamp < d ∧ same_line_pair c1 r := by
        refine ⟨c2, List.mem_singleton_self c2, hd, ?_, hpair⟩
        calc c1.timestamp - c2.timestamp
            ≤ |c1.timestamp - c2.timestamp| := le_abs_self _
          _ < d := ht
      simp only [accepted_count, is_new_first]
      rw [is_new_some_eq, if_pos hdup]
      simp
  · rintro ⟨hgap, hord⟩
    have habs : |c1.timestamp - c2.timestamp| = c2.timestamp - c1.timestamp := by
      rw [abs_sub_comm]
      exact abs_of_nonneg (by linarith)
    have hnodup : ¬ ∃ r ∈ [c1],
        pixel_distance c2.intersection_point r.intersection_point < tolerance ∧
        c2.timestamp - r.timestamp < d ∧ same_line_pair c2 r := by
      rintro ⟨r, hr, -, htime, -⟩
      rw [List.mem_singleton] at hr
      subst hr
      rw [habs] at hgap
      linarith
    simp only [accepted_count, is_new_first]
    rw [is_new_some_eq, if_neg hnodup]
    simp
  · intro hfar
    constructor
    · have hnodup : ¬ ∃ r ∈ [c1],
          pixel_distance c2.intersection_point r.intersection_point < tolerance ∧
          c2.timestamp - r.timestamp < d ∧ same_line_pair c2 r := by
        rintro ⟨r, hr, hdist, -, -⟩
        rw [List.mem_singleton] at hr
        subst hr
        rw [hsymmd] at hdist
        linarith
      simp only [accepted_count, is_new_first]
      rw [is_new_some_eq, if_neg hnodup]
      simp
    · have hnodup : ¬ ∃ r ∈ [c2],
          pixel_distance c1.intersection_point r.intersection_point < tolerance ∧
          c1.timestamp - r.timestamp < d ∧ same_line_pair c1 r := by
        rintro ⟨r, hr, hdist, -, -⟩
        rw [List.mem_singleton] at hr
        subst hr
        linarith
      simp only [accepted_count, is_new_first]
      rw [is_new_some_eq, if_neg hnodup]
      simp

/-- C3 witness: two crossovers of the same unordered pair, at the same pixel,
30 seconds apart with a 60-second debounce: exactly one is accepted in either
order. -/
theorem C3_witness :
    accepted_count 60 8 cross_w cross_w2 = 1 ∧ accepted_count 60 8 cross_w2 cross_w = 1 :=
  (C3_dedup_property 60 8 cross_w cross_w2
      (by unfold same_line_pair cross_w cross_w2; simp)).1
    ⟨by unfold pixel_distance cross_w cross_w2; norm_num,
     by unfold cross_w cross_w2; rw [zero_sub, abs_neg, abs_of_nonneg]; norm_num; norm_num⟩

lemma neighbor_values_in_frame {m : Mask} {y x : ℤ} {v : ℕ}
    (hv : v ∈ neighbor_values m y x) :
    ∃ a b, 0 ≤ a ∧ a < (m.h : ℤ) ∧ 0 ≤ b ∧ b < (m.w : ℤ) ∧ v = m.pix a b := by
  simp only [neighbor_values, List.mem_filterMap] at hv
  obtain ⟨o, -, ho⟩ := hv
  by_cases hc : 0 ≤ y + o.1 ∧ y + o.1 < (m.h : ℤ) ∧ 0 ≤ x + o.2 ∧ x + o.2 < (m.w : ℤ)
  · rw [if_pos hc] at ho
    exact ⟨y + o.1, x + o.2, hc.1, hc.2.1, hc.2.2.1, hc.2.2.2, (Option.some_inj.mp ho).symm⟩
  · rw [if_neg hc] at ho
    exact absurd ho (by simp)

lemma self_mem_neighbor_values {m : Mask} {y x : ℤ}
    (hy0 : 0 ≤ y) (hyh : y < (m.h : ℤ)) (hx0 : 0 ≤ x) (hxw : x < (m.w : ℤ)) :
    m.pix y x ∈ neighbor_values m y x := by
  simp only [neighbor_values, List.mem_filterMap]
  refine ⟨(0, 0), by simp [kernel_offsets], ?_⟩
  rw [if_pos (by simpa using ⟨hy0, hyh, hx0, hxw⟩)]
  simp

lemma foldl_min_le_init (l : List ℕ) : ∀ a : ℕ, l.foldl min a ≤ a := by
  induction l with
  | nil => intro a; simp
  | cons x xs ih =>
    intro a
    calc (x :: xs).foldl min a = xs.foldl min (min a x) := rfl
      _ ≤ min a x := ih (min a x)
      _ ≤ a := min_le_left a x

lemma foldl_min_le_mem {l : List ℕ} {v : ℕ} (hv : v ∈ l) : ∀ a : ℕ, l.foldl min a ≤ v := by
  induction l with
  | nil => cases hv
  | cons x xs ih =>
    intro a
    rcases List.mem_cons.mp hv with h | h
    · subst h
      calc (v :: xs).foldl min a = xs.foldl min (min a v) := rfl
        _ ≤ min a v := foldl_min_le_init xs (min a v)
        _ ≤ v := min_le_right a v
    · calc (x :: xs).foldl min a = xs.foldl min (min a x) := rfl
        _ ≤ v := ih h (min a x)

lemma foldl_max_zero {l : List ℕ} (hl : ∀ v ∈ l, v = 0) : l.foldl max 0 = 0 := by
  induction l with
  | nil => rfl
  | cons x xs ih =>
    have hx : x = 0 := hl x (List.mem_cons_self x xs)
    have : ∀ v ∈ xs, v = 0 := fun v hv => hl v (List.mem_cons_of_mem x hv)
    calc (x :: xs).foldl max 0 = xs.foldl max (max 0 x) := rfl
      _ = xs.foldl max 0 := by rw [hx]; simp
      _ = 0 := ih this

lemma erode3_zero_in_frame {m : Mask}
    (hm : ∀ y x : ℤ, 0 ≤ y → y < (m.h : ℤ) → 0 ≤ x → x < (m.w : ℤ) → m.pix y x = 0) :
    ∀ y x : ℤ, 0 ≤ y → y < (m.h : ℤ) → 0 ≤ x → x < (m.w : ℤ) → (erode3 m).pix y x = 0 := by
  intro y x hy0 hyh hx0 hxw
  have hself : m.pix y x ∈ neighbor_values m y x :=
    self_mem_neighbor_values hy0 hyh hx0 hxw
  have hzero : m.pix y x = 0 := hm y x hy0 hyh hx0 hxw
  have hle : (neighbor_values m y x).foldl min 255 ≤ m.pix y x :=
    foldl_min_le_mem hself 255
  show (neighbor_values m y x).foldl min 255 = 0
  omega

lemma dilate3_zero_everywhere {m : Mask}
    (hm : ∀ y x : ℤ, 0 ≤ y → y < (m.h : ℤ) → 0 ≤ x → x < (m.w : ℤ) → m.pix y x = 0) :
    ∀ y x : ℤ, (dilate3 m).pix y x = 0 := by
  intro y x
  show (neighbor_values m y x).foldl max 0 = 0
  refine foldl_max_zero ?_
  intro v hv
  obtain ⟨a, b, ha0, hah, hb0, hbw, hvab⟩ := neighbor_values_in_frame hv
  rw [hvab]
  exact hm a b ha0 hah hb0 hbw

/-- C8: create_color_mask never propagates an error.  The result always has
the input image's height and width; a processing failure (a missing config
key, raising inside the try-block) yields the all-zero mask; and malformed
HSV bounds (lower above upper on any channel) make the inRange threshold
empty, which the morphological open and close preserve, so every in-frame
pixel of the result is zero. -/
theorem C8_mask_fail_safe :
    (∀ (toHSV : ℕ × ℕ × ℕ → ℕ × ℕ × ℕ) (image : Frame) (cfg : String → Option ℤ),
      (create_color_mask toHSV image cfg).h = image.h ∧
      (create_color_mask toHSV image cfg).w = image.w) ∧
    (∀ (toHSV : ℕ × ℕ × ℕ → ℕ × ℕ × ℕ) (image : Frame) (cfg : String → Option ℤ),
      get_hsv_bounds cfg = none →
      ∀ y x : ℤ, (create_color_mask toHSV image cfg).pix y x = 0) ∧
    (∀ (toHSV : ℕ × ℕ × ℕ → ℕ × ℕ × ℕ) (image : Frame) (cfg : String → Option ℤ)
      (lo hi : ℤ × ℤ × ℤ),
      get_hsv_bounds cfg = some (lo, hi) →
      (hi.1 < lo.1 ∨ hi.2.1 < lo.2.1 ∨ hi.2.2 < lo.2.2) →
      ∀ y x : ℤ, 0 ≤ y → y < (image.h : ℤ) → 0 ≤ x → x < (image.w : ℤ) →
        (create_color_mask toHSV image cfg).pix y x = 0) := by
  refine ⟨?_, ?_, ?_⟩
  · intro toHSV image cfg
    unfold create_color_mask
    match hb : get_hsv_bounds cfg with
    | none => exact ⟨rfl, rfl⟩
    | some (lo, hi) => exact ⟨rfl, rfl⟩
  · intro toHSV image cfg hnone y x
    unfold create_color_mask
    rw [hnone]
    rfl
  · intro toHSV image cfg lo hi hsome hbad y x hy0 hyh hx0 hxw
    unfold create_color_mask
    rw [hsome]
    set m0 := inRange (hsv_image toHSV image) lo hi with hm0
    have hm0z : ∀ a b : ℤ, m0.pix a b = 0 := by
      intro a b
      rw [hm0]
      unfold inRange
      simp only
      rw [if_neg]
      rintro ⟨-, -, -, -, h1lo, h1hi, h2lo, h2hi, h3lo, h3hi⟩
      rcases hbad with hbad | hbad | hbad <;> omega
    have hm0dims : m0.h = image.h ∧ m0.w = image.w := ⟨rfl, rfl⟩
    have herode : ∀ a b : ℤ, 0 ≤ a → a < (m0.h : ℤ) → 0 ≤ b → b < (m0.w : ℤ) →
        (erode3 m0).pix a b = 0 :=
      erode3_zero_in_frame (fun a b _ _ _ _ => hm0z a b)
    have hopen : ∀ a b : ℤ, (morph_open m0).pix a b = 0 :=
      dilate3_zero_everywhere herode
    have hdil : ∀ a b : ℤ, (dilate3 (morph_open m0)).pix a b = 0 :=
      dilate3_zero_everywhere (fun a b _ _ _ _ => hopen a b)
    have hclose : ∀ a b : ℤ, 0 ≤ a → a < (image.h : ℤ) → 0 ≤ b → b < (image.w : ℤ) →
        (morph_close (morph_open m0)).pix a b = 0 :=
      erode3_zero_in_frame (fun a b _ _ _ _ => hdil a b)
    exact hclose y x hy0 hyh hx0 hxw

/-- A 1x1 all-black test image. -/
def img_test : Frame := { h := 1, w := 1, pix := fun _ _ => (0, 0, 0) }

/-- A band dict whose hue bounds are reversed (lower above upper). -/
def cfg_bad : String → Option ℤ := fun k =>
  if k = "hue_min" then some 5
  else if k = "hue_max" then some 1
  else if k = "sat_min" then some 0
  else if k = "sat_max" then some 255
  else if k = "val_min" then some 0
  else if k = "val_max" then some 255
  else none

/-- C8 witness: reversed hue bounds produce a zero in-frame pixel on a
concrete image. -/
theorem C8_witness :
    (create_color_mask (fun c => c) img_test cfg_bad).pix 0 0 = 0 :=
  C8_mask_fail_safe.2.2 (fun c => c) img_test cfg_bad (5, 0, 0) (1, 255, 255)
    (by decide) (by norm_num) 0 0 (by norm_num) (by norm_num [img_test])
    (by norm_num) (by norm_num [img_test])

lemma sample_fold_range (mask : Mask) (p q : ℤ × ℤ) (steps : ℕ) :
    ∀ (jl : List ℕ) (acc : ℕ × ℕ),
      jl.foldl (fun acc2 j =>
        let pt := sample_point p q steps j
        if sample_in_frame mask pt then
          if 0 < mask.pix pt.2 pt.1 then (acc2.1 + 1, acc2.2 + 1)
          else (acc2.1, acc2.2 + 1)
        else acc2) acc =
      (acc.1 + (jl.map (sample_point p q steps)).countP
          (fun pt => decide (sample_in_frame mask pt) && decide (0 < mask.pix pt.2 pt.1)),
       acc.2 + (jl.map (sample_point p q steps)).countP
          (fun pt => decide (sample_in_frame mask pt))) := by
  intro jl
  induction jl with
  | nil => intro acc; simp
  | cons j rest ih =>
    intro acc
    simp only [List.foldl_cons, List.map_cons, List.countP_cons]
    rw [ih]
    by_cases hframe : sample_in_frame mask (sample_point p q steps j)
    · by_cases hhit : 0 < mask.pix (sample_point p q steps j).2 (sample_point p q steps j).1
      · simp [hframe, hhit, Prod.ext_iff] <;> omega
      · simp [hframe, hhit, Prod.ext_iff] <;> omega
    · simp [hframe, Prod.ext_iff] <;> omega

lemma mask_sample_counts_eq (mask : Mask) (pts : List (ℤ × ℤ)) :
    mask_sample_counts mask pts =
      ((sample_points_spec pts).countP
          (fun pt => decide (sample_in_frame mask pt) && decide (0 < mask.pix pt.2 pt.1)),
       (sample_points_spec pts).countP (fun pt => decide (sample_in_frame mask pt))) := by
  unfold mask_sample_counts sample_points_spec
  suffices h : ∀ (segs : List ((ℤ × ℤ) × (ℤ × ℤ))) (acc : ℕ × ℕ),
      segs.foldl
        (fun acc s =>
          (List.range (seg_steps s.1 s.2)).foldl
            (fun acc2 j =>
              let pt := sample_point s.1 s.2 (seg_steps s.1 s.2) j
              if sample_in_frame mask pt then
                if 0 < mask.pix pt.2 pt.1 then (acc2.1 + 1, acc2.2 + 1)
                else (acc2.1, acc2.2 + 1)
              else acc2)
            acc)
        acc =
      (acc.1 + (segs.flatMap (fun s =>
          (List.range (seg_steps s.1 s.2)).map (sample_point s.1 s.2 (seg_steps s.1 s.2)))).countP
            (fun pt => decide (sample_in_frame mask pt) && decide (0 < mask.pix pt.2 pt.1)),
       acc.2 + (segs.flatMap (fun s =>
          (List.range (seg_steps s.1 s.2)).map (sample_point s.1 s.2 (seg_steps s.1 s.2)))).countP
            (fun pt => decide (sample_in_frame mask pt))) by
    rw [h (segment_list pts) (0, 0)]
    simp
  intro segs
  induction segs with
  | nil => intro acc; simp
  | cons s rest ih =>
    intro acc
    simp only [List.foldl_cons, List.flatMap_cons, List.countP_append]
    rw [sample_fold_range mask s.1 s.2 (seg_steps s.1 s.2) (List.range (seg_steps s.1 s.2)) acc]
    rw [ih]
    simp [Prod.ext_iff] <;> omega

lemma mask_factor_spec_eq (mask : Mask) (pts : List (ℤ × ℤ)) :
    mask_factor_spec mask pts =
      ((mask_sample_counts mask pts).1 : ℝ) /
        (((max (mask_sample_counts mask pts).2 1 : ℕ) : ℝ)) := by
  rw [mask_sample_counts_eq]
  have h1 : (((sample_points_spec pts).filter (fun pt => decide (sample_in_frame mask pt))).filter
        (fun pt => decide (0 < mask.pix pt.2 pt.1))).length =
      (sample_points_spec pts).countP
        (fun pt => decide (sample_in_frame mask pt) && decide (0 < mask.pix pt.2 pt.1)) := by
    rw [← List.countP_eq_length_filter]
    rw [List.countP_filter]
    refine List.countP_congr ?_
    intro pt _
    simp [Bool.and_comm]
  have h2 : ((sample_points_spec pts).filter (fun pt => decide (sample_in_frame mask pt))).length =
      (sample_points_spec pts).countP (fun pt => decide (sample_in_frame mask pt)) :=
    (List.countP_eq_length_filter _ _).symm
  simp only [mask_factor_spec]
  rw [h1, h2]

/-- C7: calculate_line_confidence returns exactly 0 for fewer than 2 points;
otherwise it is the arithmetic mean of length_factor = min(total_length/200, 1),
points_factor = min(point_count/20, 1) and mask_factor = the fraction of the
~5-px-spaced samples along the segments landing on a nonzero mask pixel (with
out-of-frame samples excluded from both numerator and denominator), the result
clamped to [0, 1]. -/
theorem C7_line_confidence_formula :
    (∀ (pts : List (ℤ × ℤ)) (mask : Mask), pts.length < 2 →
      calculate_line_confidence pts mask = 0) ∧
    (∀ (pts : List (ℤ × ℤ)) (mask : Mask), 2 ≤ pts.length →
      calculate_line_confidence pts mask =
        min (max ((min (polyline_length pts / 200) 1 + min ((pts.length : ℝ) / 20) 1 +
          mask_factor_spec mask pts) / 3) 0) 1) := by
  constructor
  · intro pts mask h
    unfold calculate_line_confidence
    rw [if_pos h]
  · intro pts mask h
    unfold calculate_line_confidence
    rw [if_neg (by omega)]
    rw [mask_factor_spec_eq]

/-- C7 witness: the formula instantiated on a concrete two-point polyline and
a concrete all-zero mask. -/
theorem C7_witness :
    calculate_line_confidence [((0 : ℤ), (0 : ℤ)), (3, 4)] (zeros_mask 10 10) =
      min (max ((min (polyline_length [((0 : ℤ), (0 : ℤ)), (3, 4)] / 200) 1 +
        min ((([((0 : ℤ), (0 : ℤ)), (3, 4)] : List (ℤ × ℤ)).length : ℝ) / 20) 1 +
        mask_factor_spec (zeros_mask 10 10) [((0 : ℤ), (0 : ℤ)), (3, 4)]) / 3) 0) 1 :=
  C7_line_confidence_formula.2 [(0, 0), (3, 4)] (zeros_mask 10 10) (by simp)

/-- Certification of the seg_steps translation: for the integer radicand of
the source, int(sqrt(d2) / 5) is the natural floor of the real expression. -/
lemma seg_steps_eq_floor (p q : ℤ × ℤ) :
    seg_steps p q =
      max (⌊Real.sqrt (((q.1 - p.1 : ℤ) : ℝ) ^ 2 + ((q.2 - p.2 : ℤ) : ℝ) ^ 2) / 5⌋₊) 1 := by
  unfold seg_steps
  have hnn : (0 : ℤ) ≤ (q.1 - p.1) ^ 2 + (q.2 - p.2) ^ 2 := by positivity
  have h1 : ((((q.1 - p.1) ^ 2 + (q.2 - p.2) ^ 2).toNat : ℤ)) =
      (q.1 - p.1) ^ 2 + (q.2 - p.2) ^ 2 := Int.toNat_of_nonneg hnn
  have hcast : ((((q.1 - p.1) ^ 2 + (q.2 - p.2) ^ 2).toNat : ℕ) : ℝ) =
      ((q.1 - p.1 : ℤ) : ℝ) ^ 2 + ((q.2 - p.2 : ℤ) : ℝ) ^ 2 := by
    have := congrArg (fun z : ℤ => (z : ℝ)) h1
    push_cast at this ⊢
    linarith
  rw [show (5 : ℝ) = ((5 : ℕ) : ℝ) by norm_num, Nat.floor_div_nat, ← hcast,
    Real.nat_floor_real_sqrt_eq_nat_sqrt]

/-- C5 (code behaviour at the failing input): a zero-length direction vector
yields the nan outcome (none), not the angle 0 the spec prescribes, because
numpy's division emits nan without raising and the except-handler never runs;
on a regular perpendicular input the function computes some 90. -/
theorem C5_angle_nan_on_zero_vector :
    calculate_intersection_angle (0, 0) (0, 0) (0, 0) (1, 0) = none ∧
    calculate_intersection_angle (0, 0) (10, 0) (0, 0) (0, 10) = some 90 := by
  constructor
  · unfold calculate_intersection_angle
    norm_num
  · unfold calculate_intersection_angle
    norm_num
    rw [show Real.pi / 2 * (180 / Real.pi) = 90 by
      field_simp
      ring]
    norm_num

lemma sqrt_sum_sq_ne_zero {a b : ℝ} (h : a ^ 2 + b ^ 2 ≠ 0) :
    Real.sqrt (a ^ 2 + b ^ 2) ≠ 0 := by
  rw [Real.sqrt_ne_zero']
  exact lt_of_le_of_ne (by positivity) (Ne.symm h)

/-- Perpendicular integer direction vectors give angle 90. -/
lemma calculate_angle_of_perp (p1 p2 p3 p4 : ℤ × ℤ)
    (h1 : (((p2.1 - p1.1 : ℤ) : ℝ) ^ 2 + ((p2.2 - p1.2 : ℤ) : ℝ) ^ 2) ≠ 0)
    (h2 : (((p4.1 - p3.1 : ℤ) : ℝ) ^ 2 + ((p4.2 - p3.2 : ℤ) : ℝ) ^ 2) ≠ 0)
    (hperp : ((p2.1 - p1.1 : ℤ) : ℝ) * ((p4.1 - p3.1 : ℤ) : ℝ) +
      ((p2.2 - p1.2 : ℤ) : ℝ) * ((p4.2 - p3.2 : ℤ) : ℝ) = 0) :
    calculate_intersection_angle p1 p2 p3 p4 = some 90 := by
  have hn1 := sqrt_sum_sq_ne_zero h1
  have hn2 := sqrt_sum_sq_ne_zero h2
  unfold calculate_intersection_angle
  simp only []
  rw [if_neg (by push_neg; exact ⟨hn1, hn2⟩)]
  have hdot : ((p2.1 - p1.1 : ℤ) : ℝ) / Real.sqrt (((p2.1 - p1.1 : ℤ) : ℝ) ^ 2 + ((p2.2 - p1.2 : ℤ) : ℝ) ^ 2) *
        (((p4.1 - p3.1 : ℤ) : ℝ) / Real.sqrt (((p4.1 - p3.1 : ℤ) : ℝ) ^ 2 + ((p4.2 - p3.2 : ℤ) : ℝ) ^ 2)) +
      ((p2.2 - p1.2 : ℤ) : ℝ) / Real.sqrt (((p2.1 - p1.1 : ℤ) : ℝ) ^ 2 + ((p2.2 - p1.2 : ℤ) : ℝ) ^ 2) *
        (((p4.2 - p3.2 : ℤ) : ℝ) / Real.sqrt (((p4.1 - p3.1 : ℤ) : ℝ) ^ 2 + ((p4.2 - p3.2 : ℤ) : ℝ) ^ 2)) = 0 := by
    rw [div_mul_div_comm, div_mul_div_comm, div_add_div_same, hperp, zero_div]
  rw [hdot]
  norm_num
  rw [show Real.pi / 2 * (180 / Real.pi) = 90 by field_simp; ring]
  norm_num

/-- Horizontal segment y = 0, from x = 0 to x = 10. -/
noncomputable def hline1 : DetectedLine :=
  { points := [(0, 0), (10, 0)], color_name := "a", confidence := 1,
    timestamp := 0, length := 10 }

/-- Horizontal segment y = 5, parallel to hline1 and not overlapping it. -/
noncomputable def hline2 : DetectedLine :=
  { points := [(0, 5), (10, 5)], color_name := "b", confidence := 1,
    timestamp := 0, length := 10 }

/-- The diagonal (0,0)-(10,10). -/
noncomputable def xline1 : DetectedLine :=
  { points := [(0, 0), (10, 10)], color_name := "a", confidence := 1,
    timestamp := 0, length := 10 }

/-- The diagonal (0,10)-(10,0). -/
noncomputable def xline2 : DetectedLine :=
  { points := [(0, 10), (10, 0)], color_name := "b", confidence := 1,
    timestamp := 0, length := 10 }

/-- The single candidate produced by the two crossing diagonals. -/
noncomputable def xcand : Candidate :=
  { point := (5, 5), angle := 90, confidence := 1,
    line1_segment := (0, (0, 0), (10, 10)), line2_segment := (0, (0, 10), (10, 0)) }

lemma lsi_parallel_eval :
    line_segment_intersection (0, 0) (10, 0) (0, 5) (10, 5) = none := by
  unfold line_segment_intersection intersection_denominator
  norm_num

lemma lsi_x_eval :
    line_segment_intersection (0, 0) (10, 10) (0, 10) (10, 0) = some (5, 5) := by
  unfold line_segment_intersection intersection_t1 intersection_t2 intersection_denominator
  norm_num [Prod.ext_iff]

lemma angle_x_eval :
    calculate_intersection_angle (0, 0) (10, 10) (0, 10) (10, 0) = some 90 := by
  refine calculate_angle_of_perp (0, 0) (10, 10) (0, 10) (10, 0) ?_ ?_ ?_ <;> norm_num

/-- C4: line_segment_intersection returns a point exactly when the absolute
denominator is at least 1e-10 and both solved parameters lie in [0, 1]
inclusive; the two parallel non-overlapping horizontal single-segment lines
produce no candidates; the crossing diagonals (0,0)-(10,10) and (0,10)-(10,0)
produce exactly one candidate, at point (5,5) with angle 90. -/
theorem C4_segment_intersection_iff_and_examples :
    (∀ p1 p2 p3 p4 : ℤ × ℤ,
      ((line_segment_intersection p1 p2 p3 p4).isSome = true ↔
        (1 / 10000000000 ≤ |((intersection_denominator p1 p2 p3 p4 : ℤ) : ℚ)| ∧
         0 ≤ intersection_t1 p1 p2 p3 p4 ∧ intersection_t1 p1 p2 p3 p4 ≤ 1 ∧
         0 ≤ intersection_t2 p1 p2 p3 p4 ∧ intersection_t2 p1 p2 p3 p4 ≤ 1))) ∧
    find_line_intersections hline1 hline2 = [] ∧
    (find_line_intersections xline1 xline2 = [xcand] ∧
      xcand.point = (5, 5) ∧ xcand.angle = 90) := by
  refine ⟨?_, ?_, ?_, rfl, rfl⟩
  · intro p1 p2 p3 p4
    unfold line_segment_intersection
    by_cases hpar : |((intersection_denominator p1 p2 p3 p4 : ℤ) : ℚ)| < 1 / 10000000000
    · rw [if_pos hpar]
      simp only [Option.isSome_none, Bool.false_eq_true, false_iff]
      rintro ⟨hle, -⟩
      exact absurd hpar (not_lt.mpr hle)
    · rw [if_neg hpar]
      by_cases hts : 0 ≤ intersection_t1 p1 p2 p3 p4 ∧ intersection_t1 p1 p2 p3 p4 ≤ 1 ∧
          0 ≤ intersection_t2 p1 p2 p3 p4 ∧ intersection_t2 p1 p2 p3 p4 ≤ 1
      · rw [if_pos hts]
        simp only [Option.isSome_some, true_iff]
        exact ⟨not_lt.mp hpar, hts⟩
      · rw [if_neg hts]
        simp only [Option.isSome_none, Bool.false_eq_true, false_iff]
        rintro ⟨-, h⟩
        exact hts h
  · unfold find_line_intersections hline1 hline2 segment_list
    simp only [List.zip_cons_cons, List.tail_cons, List.zip_nil_right, List.enum,
      List.enumFrom, List.flatMap_cons, List.flatMap_nil]
    rw [lsi_parallel_eval]
    rfl
  · unfold find_line_intersections xline1 xline2 segment_list
    simp only [List.zip_cons_cons, List.tail_cons, List.zip_nil_right, List.enum,
      List.enumFrom, List.flatMap_cons, List.flatMap_nil]
    rw [lsi_x_eval, angle_x_eval]
    dsimp only
    have hlt : ¬ ((90 : ℝ) < 10) := by norm_num
    rw [if_neg hlt]
    have htr : rat_trunc (5 : ℚ) = 5 := by
      unfold rat_trunc
      norm_num
    simp only [List.append_nil, List.nil_append, htr]
    unfold xcand
    norm_num [Candidate.mk.injEq, Prod.ext_iff]

/-- C4 witness: the iff instantiated at the crossing diagonals. -/
theorem C4_witness :
    (line_segment_intersection (0, 0) (10, 10) (0, 10) (10, 0)).isSome = true :=
  (C4_segment_intersection_iff_and_examples.1 (0, 0) (10, 10) (0, 10) (10, 0)).mpr
    (by unfold intersection_t1 intersection_t2 intersection_denominator; norm_num)

/-- General evaluation of the angle when the normalised dot product is a known
value: the raw dot product equals dot times the product of the norms. -/
lemma calculate_intersection_angle_eq (p1 p2 p3 p4 : ℤ × ℤ) (dot : ℝ)
    (h1 : (((p2.1 - p1.1 : ℤ) : ℝ) ^ 2 + ((p2.2 - p1.2 : ℤ) : ℝ) ^ 2) ≠ 0)
    (h2 : (((p4.1 - p3.1 : ℤ) : ℝ) ^ 2 + ((p4.2 - p3.2 : ℤ) : ℝ) ^ 2) ≠ 0)
    (hd : ((p2.1 - p1.1 : ℤ) : ℝ) * ((p4.1 - p3.1 : ℤ) : ℝ) +
        ((p2.2 - p1.2 : ℤ) : ℝ) * ((p4.2 - p3.2 : ℤ) : ℝ) =
      dot * (Real.sqrt (((p2.1 - p1.1 : ℤ) : ℝ) ^ 2 + ((p2.2 - p1.2 : ℤ) : ℝ) ^ 2) *
        Real.sqrt (((p4.1 - p3.1 : ℤ) : ℝ) ^ 2 + ((p4.2 - p3.2 : ℤ) : ℝ) ^ 2))) :
    calculate_intersection_angle p1 p2 p3 p4 =
      some (min (Real.arccos (max (-1) (min dot 1)) * (180 / Real.pi))
        (180 - Real.arccos (max (-1) (min dot 1)) * (180 / Real.pi))) := by
  have hn1 := sqrt_sum_sq_ne_zero h1
  have hn2 := sqrt_sum_sq_ne_zero h2
  unfold calculate_intersection_angle
  simp only []
  rw [if_neg (by push_neg; exact ⟨hn1, hn2⟩)]
  have hdot : ((p2.1 - p1.1 : ℤ) : ℝ) /
        Real.sqrt (((p2.1 - p1.1 : ℤ) : ℝ) ^ 2 + ((p2.2 - p1.2 : ℤ) : ℝ) ^ 2) *
        (((p4.1 - p3.1 : ℤ) : ℝ) /
          Real.sqrt (((p4.1 - p3.1 : ℤ) : ℝ) ^ 2 + ((p4.2 - p3.2 : ℤ) : ℝ) ^ 2)) +
      ((p2.2 - p1.2 : ℤ) : ℝ) /
        Real.sqrt (((p2.1 - p1.1 : ℤ) : ℝ) ^ 2 + ((p2.2 - p1.2 : ℤ) : ℝ) ^ 2) *
        (((p4.2 - p3.2 : ℤ) : ℝ) /
          Real.sqrt (((p4.1 - p3.1 : ℤ) : ℝ) ^ 2 + ((p4.2 - p3.2 : ℤ) : ℝ) ^ 2)) = dot := by
    rw [div_mul_div_comm, div_mul_div_comm, div_add_div_same, hd]
    rw [mul_div_assoc]
    rw [div_self (by exact mul_ne_zero hn1 hn2)]
    rw [mul_one]
  rw [hdot]

/-- The raw angle (in degrees) of the C1 counterexample geometry. -/
noncomputable def thetaA : ℝ := Real.arccos (9999 / 10001) * (180 / Real.pi)

/-- The acute angle of the C1 counterexample geometry. -/
noncomputable def angleA : ℝ := min thetaA (180 - thetaA)

lemma cos_pi_div_18_lt : Real.cos (Real.pi / 18) < 9999 / 10001 := by
  have hpi_lt : Real.pi < 3.15 := Real.pi_lt_d2
  have hpi_gt : (3.14 : ℝ) < Real.pi := Real.pi_gt_d2
  have hx_pos : (0 : ℝ) < Real.pi / 18 := by positivity
  have hx_le_one : |Real.pi / 18| ≤ 1 := by
    rw [abs_of_pos hx_pos]
    nlinarith
  have hbound := Real.cos_bound hx_le_one
  have hub : Real.cos (Real.pi / 18) ≤
      1 - (Real.pi / 18) ^ 2 / 2 + |Real.pi / 18| ^ 4 * (5 / 96) := by
    have := abs_sub_le_iff.mp hbound
    linarith [this.1]
  have habs : |Real.pi / 18| = Real.pi / 18 := abs_of_pos hx_pos
  rw [habs] at hub
  have hlt2 : (3.14 / 18 : ℝ) ^ 2 ≤ (Real.pi / 18) ^ 2 := by
    have h : (3.14 : ℝ) / 18 ≤ Real.pi / 18 := by linarith
    exact pow_le_pow_left (by norm_num) h 2
  have hlt4 : (Real.pi / 18) ^ 4 ≤ (3.15 / 18 : ℝ) ^ 4 := by
    have h : Real.pi / 18 ≤ (3.15 : ℝ) / 18 := by linarith
    exact pow_le_pow_left (le_of_lt hx_pos) h 4
  have final : (1 : ℝ) - (3.14 / 18) ^ 2 / 2 + (3.15 / 18) ^ 4 * (5 / 96) < 9999 / 10001 := by
    norm_num
  linarith

lemma thetaA_lt_10 : thetaA < 10 := by
  have harc : Real.arccos (9999 / 10001) < Real.pi / 18 := by
    by_contra hle
    push_neg at hle
    have hc1 : Real.cos (Real.arccos (9999 / 10001)) ≤ Real.cos (Real.pi / 18) := by
      refine Real.cos_le_cos_of_nonneg_of_le_pi (by positivity) ?_ hle
      exact Real.arccos_le_pi _
    rw [Real.cos_arccos (by norm_num) (by norm_num)] at hc1
    linarith [cos_pi_div_18_lt]
  have hpos : (0 : ℝ) < 180 / Real.pi := by positivity
  have := mul_lt_mul_of_pos_right harc hpos
  calc thetaA = Real.arccos (9999 / 10001) * (180 / Real.pi) := rfl
    _ < Real.pi / 18 * (180 / Real.pi) := this
    _ = 10 := by
        field_simp
        ring
lemma thetaA_nonneg : 0 ≤ thetaA := by
  unfold thetaA
  have := Real.arccos_nonneg (9999 / 10001)
  positivity

lemma thetaA_le_180 : thetaA ≤ 180 := by
  unfold thetaA
  have harc := Real.arccos_le_pi (9999 / 10001 : ℝ)
  have hpi := Real.pi_pos
  calc Real.arccos (9999 / 10001) * (180 / Real.pi) ≤ Real.pi * (180 / Real.pi) := by
        exact mul_le_mul_of_nonneg_right harc (by positivity)
    _ = 180 := by field_simp

lemma angleA_lt_10 : angleA < 10 :=
  lt_of_le_of_lt (min_le_left _ _) thetaA_lt_10

lemma angleA_nonneg : 0 ≤ angleA :=
  le_min thetaA_nonneg (by linarith [thetaA_le_180])

/-- The shallow diagonal (0,0)-(100,1), extracted with line confidence 1/5. -/
noncomputable def lineA1 : DetectedLine :=
  { points := [(0, 0), (100, 1)], color_name := "a", confidence := 1 / 5,
    timestamp := 0, length := polyline_length [(0, 0), (100, 1)] }

/-- The shallow diagonal (0,1)-(100,0), extracted with line confidence 1. -/
noncomputable def lineA2 : DetectedLine :=
  { points := [(0, 1), (100, 0)], color_name := "b", confidence := 1,
    timestamp := 0, length := polyline_length [(0, 1), (100, 0)] }

/-- A configuration with confidence threshold 2/5. -/
noncomputable def cfgA : DetectionConfig :=
  { confidence_threshold := 2 / 5, intersection_tolerance := 8,
    debounce_seconds := some 60 }

/-- The angle factor of the shallow candidate (halved because the angle is
below 10 degrees). -/
noncomputable def angle_factor_A : ℝ := min (angleA / 45) 1 * (1 / 2)

/-- The single candidate of the shallow crossing. -/
noncomputable def candA : Candidate :=
  { point := (50, 0), angle := angleA,
    confidence := (1 / 5 + 1 + angle_factor_A) / 3,
    line1_segment := (0, (0, 0), (100, 1)), line2_segment := (0, (0, 1), (100, 0)) }

/-- The crossover detect_crossovers emits for the shallow crossing. -/
noncomputable def crossA : Crossover :=
  { intersection_point := (50, 0), line1_name := "a", line2_name := "b",
    line1_confidence := 1 / 5, line2_confidence := 1, timestamp := 0,
    confidence := (1 / 5 + 1 + angle_factor_A) / 3, angle := angleA }

lemma lsi_a_eval :
    line_segment_intersection (0, 0) (100, 1) (0, 1) (100, 0) = some (50, 1 / 2) := by
  unfold line_segment_intersection intersection_t1 intersection_t2 intersection_denominator
  norm_num [Prod.ext_iff]

lemma angle_a_eval :
    calculate_intersection_angle (0, 0) (100, 1) (0, 1) (100, 0) = some angleA := by
  have h10001 : Real.sqrt 10001 * Real.sqrt 10001 = 10001 :=
    Real.mul_self_sqrt (by norm_num)
  have heval := calculate_intersection_angle_eq (0, 0) (100, 1) (0, 1) (100, 0)
    (9999 / 10001) (by norm_num) (by norm_num) (by norm_num [h10001])
  rw [heval]
  have hclip : max (-1 : ℝ) (min (9999 / 10001 : ℝ) 1) = 9999 / 10001 := by
    rw [min_eq_left (by norm_num), max_eq_right (by norm_num)]
  rw [hclip]
  rfl

lemma angle_factor_A_nonneg : 0 ≤ angle_factor_A := by
  unfold angle_factor_A
  have h1 : (0 : ℝ) ≤ min (angleA / 45) 1 :=
    le_min (div_nonneg angleA_nonneg (by norm_num)) (by norm_num)
  exact mul_nonneg h1 (by norm_num)

lemma find_a_eval : find_line_intersections lineA1 lineA2 = [candA] := by
  unfold find_line_intersections lineA1 lineA2 segment_list
  simp only [List.zip_cons_cons, List.tail_cons, List.zip_nil_right, List.enum,
    List.enumFrom, List.flatMap_cons, List.flatMap_nil]
  rw [lsi_a_eval, angle_a_eval]
  dsimp only
  rw [if_pos angleA_lt_10]
  have htr50 : rat_trunc (50 : ℚ) = 50 := by
    unfold rat_trunc
    norm_num
  have htr12 : rat_trunc (1 / 2 : ℚ) = 0 := by
    unfold rat_trunc
    norm_num
  simp only [List.append_nil, List.nil_append, htr50, htr12]
  unfold candA angle_factor_A
  norm_num [Candidate.mk.injEq, Prod.ext_iff]

/-- Evaluation of detect_crossovers on two lines with a single candidate that
passes the threshold, starting from the empty state. -/
lemma detect_single_eval (cfg : DetectionConfig) (d : ℝ) (now : ℝ)
    (l1 l2 : DetectedLine) (c : Candidate)
    (hdeb : cfg.debounce_seconds = some d)
    (hpair : l1.color_name ≠ l2.color_name)
    (hfind : find_line_intersections l1 l2 = [c])
    (hconf : cfg.confidence_threshold ≤ c.confidence) :
    (detect_crossovers cfg now [l1, l2] ⟨[], []⟩).1 =
      [{ intersection_point := c.point, line1_name := l1.color_name,
         line2_name := l2.color_name, line1_confidence := l1.confidence,
         line2_confidence := l2.confidence, timestamp := now,
         confidence := c.confidence, angle := c.angle }] := by
  unfold detect_crossovers
  have hpairs : line_pairs [l1, l2] = [(l1, l2)] := by
    simp [line_pairs, hpair]
  rw [hpairs]
  simp only [List.flatMap_cons, List.flatMap_nil, List.map_cons, List.map_nil,
    List.append_nil, hfind, List.foldl_cons, List.foldl_nil]
  unfold process_candidate
  dsimp only
  rw [if_pos hconf]
  rw [hdeb, is_new_first d cfg.intersection_tolerance _]
  dsimp only
  rw [if_pos rfl]
  rfl

lemma detect_a_eval :
    (detect_crossovers cfgA 0 [lineA1, lineA2] ⟨[], []⟩).1 = [crossA] := by
  have hne : lineA1.color_name ≠ lineA2.color_name := by
    unfold lineA1 lineA2
    simp
  have hconf : cfgA.confidence_threshold ≤ candA.confidence := by
    unfold cfgA candA
    dsimp only
    linarith [angle_factor_A_nonneg]
  rw [detect_single_eval cfgA 60 0 lineA1 lineA2 candA rfl hne find_a_eval hconf]
  rfl

/-- C1 counterexample: on the shallow crossing of lineA1 (confidence 1/5) and
lineA2 (confidence 1) with threshold 2/5, detect_crossovers returns exactly
one crossover whose angle is below 10 degrees and whose line1 confidence is
below 0.5 — steps 2 and 3 of the spec's filter are not applied by
detect_crossovers (they live only in validate_crossover, which it never
calls). -/
theorem C1_counterexample :
    ((detect_crossovers cfgA 0 [lineA1, lineA2] ⟨[], []⟩).1.map Crossover.angle).head?.getD 90
        < 10 ∧
    ((detect_crossovers cfgA 0 [lineA1, lineA2]
        ⟨[], []⟩).1.map Crossover.line1_confidence).head?.getD 1 < 1 / 2 ∧
    (detect_crossovers cfgA 0 [lineA1, lineA2] ⟨[], []⟩).1.length = 1 := by
  rw [detect_a_eval]
  refine ⟨?_, ?_, rfl⟩
  · simpa [crossA] using angleA_lt_10
  · show crossA.line1_confidence < 1 / 2
    unfold crossA
    norm_num

lemma process_fold_conf (min_confidence tolerance : ℝ) (debounce : Option ℝ) (now : ℝ) :
    ∀ (xs : List (DetectedLine × DetectedLine × Candidate))
      (acc : List Crossover × List Crossover × List Crossover),
      (∀ c ∈ acc.1, min_confidence ≤ c.confidence) →
      ∀ c ∈ (xs.foldl (process_candidate min_confidence tolerance debounce now) acc).1,
        min_confidence ≤ c.confidence := by
  intro xs
  induction xs with
  | nil => intro acc h; exact h
  | cons x rest ih =>
    intro acc h
    refine ih _ ?_
    intro c hc
    unfold process_candidate at hc
    by_cases hconf : min_confidence ≤ x.2.2.confidence
    · rw [if_pos hconf] at hc
      dsimp only at hc
      by_cases hnew : (is_new_crossover debounce tolerance acc.2.1
          { intersection_point := x.2.2.point, line1_name := x.1.color_name,
            line2_name := x.2.1.color_name, line1_confidence := x.1.confidence,
            line2_confidence := x.2.1.confidence, timestamp := now,
            confidence := x.2.2.confidence, angle := x.2.2.angle }).1 = true
      · rw [if_pos hnew] at hc
        dsimp only at hc
        rcases List.mem_append.mp hc with hc | hc
        · exact h c hc
        · rw [List.mem_singleton] at hc
          subst hc
          exact hconf
      · rw [if_neg hnew] at hc
        exact h c hc
    · rw [if_neg hconf] at hc
      exact h c hc

/-- C1 (amended): the only filter detect_crossovers applies to a candidate,
beyond deduplication, is the configured confidence threshold: every returned
Crossover has candidate confidence at least confidence_threshold.  The
angle-at-least-10-degrees and per-line-confidence-at-least-0.5 filters of the
spec are implemented only in validate_crossover, which detect_crossovers never
invokes. -/
theorem C1_threshold_filter_only (cfg : DetectionConfig) (now : ℝ)
    (lines : List DetectedLine) (st : DetectorState) :
    ∀ c ∈ (detect_crossovers cfg now lines st).1,
      cfg.confidence_threshold ≤ c.confidence := by
  intro c hc
  unfold detect_crossovers at hc
  dsimp only at hc
  exact process_fold_conf cfg.confidence_threshold cfg.intersection_tolerance
    cfg.debounce_seconds now _ _ (by intro c hc; cases hc) c hc

/-- C1 witness: the threshold bound instantiated on the concrete shallow
crossing. -/
theorem C1_witness : cfgA.confidence_threshold ≤ crossA.confidence :=
  C1_threshold_filter_only cfgA 0 [lineA1, lineA2] ⟨[], []⟩ crossA
    (by rw [detect_a_eval]; exact List.mem_singleton_self _)

/-- The none branch for the angle inside find_line_intersections is
unreachable: when a segment pair intersects, its denominator is nonzero, so
both direction vectors are nonzero and the angle is defined. -/
lemma angle_some_of_intersection (p1 p2 p3 p4 : ℤ × ℤ)
    (h : (line_segment_intersection p1 p2 p3 p4).isSome = true) :
    (calculate_intersection_angle p1 p2 p3 p4).isSome = true := by
  unfold line_segment_intersection at h
  by_cases hpar : |((intersection_denominator p1 p2 p3 p4 : ℤ) : ℚ)| < 1 / 10000000000
  · rw [if_pos hpar] at h
    simp at h
  · have hdenom : intersection_denominator p1 p2 p3 p4 ≠ 0 := by
      intro h0
      apply hpar
      rw [h0]
      norm_num
    have h1 : (((p2.1 - p1.1 : ℤ) : ℝ) ^ 2 + ((p2.2 - p1.2 : ℤ) : ℝ) ^ 2) ≠ 0 := by
      intro hz
      have ha2 : ((p2.1 - p1.1 : ℤ) : ℝ) ^ 2 = 0 := by
        nlinarith [sq_nonneg ((p2.2 - p1.2 : ℤ) : ℝ), sq_nonneg ((p2.1 - p1.1 : ℤ) : ℝ)]
      have hb2 : ((p2.2 - p1.2 : ℤ) : ℝ) ^ 2 = 0 := by
        nlinarith [sq_nonneg ((p2.2 - p1.2 : ℤ) : ℝ), sq_nonneg ((p2.1 - p1.1 : ℤ) : ℝ)]
      have ha : (p2.1 - p1.1 : ℤ) = 0 := by
        have := (pow_eq_zero_iff two_ne_zero).mp ha2
        exact_mod_cast this
      have hb : (p2.2 - p1.2 : ℤ) = 0 := by
        have := (pow_eq_zero_iff two_ne_zero).mp hb2
        exact_mod_cast this
      apply hdenom
      unfold intersection_denominator
      rw [ha, hb]
      ring
    have h2 : (((p4.1 - p3.1 : ℤ) : ℝ) ^ 2 + ((p4.2 - p3.2 : ℤ) : ℝ) ^ 2) ≠ 0 := by
      intro hz
      have ha2 : ((p4.1 - p3.1 : ℤ) : ℝ) ^ 2 = 0 := by
        nlinarith [sq_nonneg ((p4.2 - p3.2 : ℤ) : ℝ), sq_nonneg ((p4.1 - p3.1 : ℤ) : ℝ)]
      have hb2 : ((p4.2 - p3.2 : ℤ) : ℝ) ^ 2 = 0 := by
        nlinarith [sq_nonneg ((p4.2 - p3.2 : ℤ) : ℝ), sq_nonneg ((p4.1 - p3.1 : ℤ) : ℝ)]
      have ha : (p4.1 - p3.1 : ℤ) = 0 := by
        have := (pow_eq_zero_iff two_ne_zero).mp ha2
        exact_mod_cast this
      have hb : (p4.2 - p3.2 : ℤ) = 0 := by
        have := (pow_eq_zero_iff two_ne_zero).mp hb2
        exact_mod_cast this
      apply hdenom
      unfold intersection_denominator
      rw [ha, hb]
      ring
    unfold calculate_intersection_angle
    simp only []
    rw [if_neg (by push_neg; exact ⟨sqrt_sum_sq_ne_zero h1, sqrt_sum_sq_ne_zero h2⟩)]
    simp

/-- The intended constructor derives the length from the points, as the
dataclass post-init computes it. -/
lemma mkDetectedLine_length (points : List (ℤ × ℤ)) (color_name : String)
    (confidence timestamp : ℝ) :
    (mkDetectedLine points color_name confidence timestamp).length =
      polyline_length points := rfl

/-- A polyline with fewer than two points has length 0. -/
lemma polyline_length_short (pts : List (ℤ × ℤ)) (h : pts.length < 2) :
    polyline_length pts = 0 := by
  match pts, h with
  | [], _ => rfl
  | [p], _ => rfl
